import Mathlib

/-!
Verification of the Bondra matching backend (queue manager, session manager,
pairing engine, websocket handlers, load balancer) against its specification.

The TypeScript sources are shallowly embedded: Redis state (sorted sets,
string keys, reverse pointers) becomes explicit state records, asynchronous
methods become pure state passing functions, and wall-clock reads
(Date.now()) become explicit time parameters.
-/

namespace Bondra

/-- Session modality, from src/config/constants.ts (enum SessionType). -/
inductive SessionType where
  | video
  | audio
  | text
deriving DecidableEq

/-- Session status, from src/config/constants.ts (enum SessionStatus). -/
inductive SessionStatus where
  | active
  | ended
  | abandoned
deriving DecidableEq

/-- Waiting-entry sidecar data, from queueManager.ts (interface IQueueUser). -/
structure IQueueUser where
  userId : String
  socketId : String
  joinedAt : Nat
deriving DecidableEq

/-- Modelled from the spec: the literal key strings of config/redis.ts
(REDIS_KEYS) are not in the source tree; per spec section 9 every
cross-entity link is a key derivable from identifiers, one sorted-set key
per modality. Only distinctness of the three queue keys matters. -/
def QUEUE_VIDEO_KEY : String := "queue:video"

def QUEUE_AUDIO_KEY : String := "queue:audio"

def QUEUE_TEXT_KEY : String := "queue:text"

/-- QueueManager.getQueueKey from queueManager.ts lines 318-329. -/
def getQueueKey : SessionType → String
  | .video => QUEUE_VIDEO_KEY
  | .audio => QUEUE_AUDIO_KEY
  | .text => QUEUE_TEXT_KEY

/-- The sidecar-data key written by addToQueue (queueManager.ts line 42),
read by getUserData (line 165) and deleted by removeFromQueue (line 80).
All three source sites interpolate REDIS_KEYS.QUEUE_VIDEO regardless of the
modality argument, so the key is a function of the user id alone. -/
def userDataKey (userId : String) : String :=
  QUEUE_VIDEO_KEY ++ ":user:" ++ userId

/-- One Redis sorted set: a list of (member, score) pairs kept in zrange
order (ascending score, ties in lexicographic member order), members
unique. -/
abbrev ZSet := List (String × Nat)

/-- Redis ZSCORE: the score of a member, if present. -/
def zscore : ZSet → String → Option Nat
  | [], _ => none
  | e :: rest, member => if e.1 = member then some e.2 else zscore rest member

/-- Redis ZREM of a single member (members are unique in a sorted set, so
dropping every matching entry coincides with removing the one entry). -/
def zrem (member : String) : ZSet → ZSet
  | [] => []
  | e :: rest => if e.1 = member then zrem member rest else e :: zrem member rest

/-- Lexicographic character-list order, the byte order a sorted set uses
between members holding the same score. -/
def memberLt : List Char → List Char → Bool
  | [], [] => false
  | [], _ :: _ => true
  | _ :: _, [] => false
  | a :: as, b :: bs =>
    if a.toNat < b.toNat then true
    else if b.toNat < a.toNat then false
    else memberLt as bs

/-- Insertion into zrange position: ascending score, lexicographic member
on score ties. -/
def zinsert (member : String) (score : Nat) : ZSet → ZSet
  | [] => [(member, score)]
  | (m, s) :: rest =>
    if score < s ∨ (score = s ∧ memberLt member.data m.data = true) then
      (member, score) :: (m, s) :: rest
    else
      (m, s) :: zinsert member score rest

/-- Redis ZADD: replaces any existing entry for the member, then inserts at
the sorted position. -/
def zadd (member : String) (score : Nat) (q : ZSet) : ZSet :=
  zinsert member score (zrem member q)

/-- The members of a sorted set, in zrange order. -/
def zmembers (q : ZSet) : List String :=
  q.map (fun e => e.1)

/-- QueueManager state: the three per-modality sorted sets plus the
string-keyed sidecar store (values held parsed; JSON round-tripping is
identity on IQueueUser records). -/
structure QMState where
  queues : SessionType → ZSet
  kv : String → Option IQueueUser

/-- The empty queue-manager state. -/
def QMState.init : QMState :=
  { queues := fun _ => [], kv := fun _ => none }

/-- QueueManager.addToQueue (queueManager.ts lines 18-62): reject when the
user already has a score in the target modality queue, otherwise write
the sidecar blob under the shared user-data key and zadd the user with
score Date.now(). -/
def addToQueue (userId socketId : String) (queueType : SessionType)
    (now : Nat) (st : QMState) : Bool × QMState :=
  let q := st.queues queueType
  if (zscore q userId).isSome then
    (false, st)
  else
    let ud : IQueueUser := ⟨userId, socketId, now⟩
    let st1 : QMState :=
      { queues := fun t => if t = queueType then zadd userId now (st.queues t) else st.queues t,
        kv := fun k => if k = userDataKey userId then some ud else st.kv k }
    (true, st1)

/-- QueueManager.getUserData (queueManager.ts lines 163-173). -/
def getUserData (userId : String) (st : QMState) : Option IQueueUser :=
  st.kv (userDataKey userId)

/-- QueueManager.removeFromQueue (queueManager.ts lines 65-96): zrem from
the modality queue, then always delete the sidecar key; returns whether a
queue entry was removed. -/
def removeFromQueue (userId : String) (queueType : SessionType)
    (st : QMState) : Bool × QMState :=
  let q := st.queues queueType
  let removed := (zscore q userId).isSome
  let st1 : QMState :=
    { queues := fun t => if t = queueType then zrem userId (st.queues t) else st.queues t,
      kv := fun k => if k = userDataKey userId then none else st.kv k }
  (removed, st1)

/-- QueueManager.findMatch (queueManager.ts lines 99-160). The distributed
lock outcome is the lockOk parameter. Reads the two oldest entries; if the
caller is among them removes both; if the partner sidecar cannot be read,
re-inserts the caller through addToQueue with an empty socket id. -/
def findMatch (userId : String) (queueType : SessionType) (lockOk : Bool)
    (now : Nat) (st : QMState) : Option IQueueUser × QMState :=
  if lockOk = false then
    (none, st)
  else
    match st.queues queueType with
    | [] => (none, st)
    | [_] => (none, st)
    | (m0, _s0) :: (m1, _s1) :: _ =>
      if userId ≠ m0 ∧ userId ≠ m1 then
        (none, st)
      else
        let partnerId := if m0 = userId then m1 else m0
        let st1 : QMState :=
          { st with queues := fun t =>
              if t = queueType then zrem m1 (zrem m0 (st.queues t)) else st.queues t }
        match st1.kv (userDataKey partnerId) with
        | none =>
          let r := addToQueue userId "" queueType now st1
          (none, r.2)
        | some pd => (some pd, st1)

/-- QueueManager.isUserInQueue (queueManager.ts lines 219-238): probes the
video, audio and text queues in that order. -/
def isUserInQueue (userId : String) (st : QMState) :
    Bool × Option SessionType :=
  if (zscore (st.queues .video) userId).isSome then (true, some .video)
  else if (zscore (st.queues .audio) userId).isSome then (true, some .audio)
  else if (zscore (st.queues .text) userId).isSome then (true, some .text)
  else (false, none)

/-- QueueManager.removeFromAllQueues (queueManager.ts lines 241-253). -/
def removeFromAllQueues (userId : String) (st : QMState) : QMState :=
  let st1 := (removeFromQueue userId .video st).2
  let st2 := (removeFromQueue userId .audio st1).2
  (removeFromQueue userId .text st2).2

/-- Active-session record cached in Redis, from sessionManager.ts
(interface IActiveSession). Session ids are modelled as naturals. -/
structure IActiveSession where
  id : Nat
  sessionType : SessionType
  user1Id : String
  user2Id : String
  startedAt : Nat
deriving DecidableEq

/-- Database session row. Modelled from the spec: the Session model
(src/models/Session.ts) is not in the source tree; per spec section 3 a
session carries (id, modality, userA, userB, status) with the lifecycle
active to ended or abandoned. -/
structure DbSession where
  sessionType : SessionType
  user1Id : String
  user2Id : String
  status : SessionStatus
deriving DecidableEq

/-- SessionManager state: Redis session records keyed by id, the per-user
reverse pointers, the database rows, and the fresh-id counter used by
session creation. -/
structure SMState where
  sessions : Nat → Option IActiveSession
  userSession : String → Option Nat
  db : Nat → Option DbSession
  nextId : Nat

/-- The empty session-manager state. -/
def SMState.init : SMState :=
  { sessions := fun _ => none, userSession := fun _ => none,
    db := fun _ => none, nextId := 0 }

/-- SessionManager.getActiveSession (sessionManager.ts lines 90-113):
reverse-pointer lookup, then session-record lookup; deletes the pointer
(self-heal) when the record is gone. -/
def getActiveSession (userId : String) (st : SMState) :
    Option IActiveSession × SMState :=
  match st.userSession userId with
  | none => (none, st)
  | some sid =>
    match st.sessions sid with
    | none =>
      (none, { st with userSession := fun u => if u = userId then none else st.userSession u })
    | some s => (some s, st)

/-- Session.create as used by SessionManager.createSession. Modelled from
the spec: allocates a fresh session id and persists an active row. -/
def dbCreate (sessionType : SessionType) (user1Id user2Id : String)
    (st : SMState) : Nat × SMState :=
  let sid := st.nextId
  (sid,
    { st with
      db := fun i => if i = sid then some ⟨sessionType, user1Id, user2Id, .active⟩ else st.db i,
      nextId := sid + 1 })

/-- Session.endSession as used by SessionManager.endSession. Modelled from
the spec: flips the row status away from active and reports whether an
active row was updated (idempotent at the database). -/
def dbEndSession (sid : Nat) (status : SessionStatus) (st : SMState) :
    Bool × SMState :=
  match st.db sid with
  | none => (false, st)
  | some row =>
    if row.status = .active then
      (true, { st with db := fun i => if i = sid then some { row with status := status } else st.db i })
    else
      (false, st)

/-- SessionManager.createSession (sessionManager.ts lines 26-87): probe
both users for an active session (the probes may self-heal), refuse if
either has one, otherwise create the database row and write the session
record together with both reverse pointers in one batch. -/
def createSession (sessionType : SessionType) (user1Id user2Id : String)
    (now : Nat) (st : SMState) : Option IActiveSession × SMState :=
  let r1 := getActiveSession user1Id st
  let r2 := getActiveSession user2Id r1.2
  if r1.1.isSome ∨ r2.1.isSome then
    (none, r2.2)
  else
    let c := dbCreate sessionType user1Id user2Id r2.2
    let sid := c.1
    let sess : IActiveSession := ⟨sid, sessionType, user1Id, user2Id, now⟩
    let st3 : SMState :=
      { c.2 with
        sessions := fun i => if i = sid then some sess else c.2.sessions i,
        userSession := fun u =>
          if u = user2Id then some sid
          else if u = user1Id then some sid
          else c.2.userSession u }
    (some sess, st3)

/-- SessionManager.getSessionById (sessionManager.ts lines 116-129). -/
def getSessionById (sid : Nat) (st : SMState) : Option IActiveSession :=
  st.sessions sid

/-- SessionManager.endSession (sessionManager.ts lines 132-172): look up
the record; if present, update the database row; only on a successful
update delete the record and both reverse pointers in one batch. -/
def endSession (sid : Nat) (status : SessionStatus) (st : SMState) :
    Bool × SMState :=
  match getSessionById sid st with
  | none => (false, st)
  | some sess =>
    let d := dbEndSession sid status st
    if d.1 then
      (true,
        { d.2 with
          sessions := fun i => if i = sid then none else d.2.sessions i,
          userSession := fun u =>
            if u = sess.user1Id ∨ u = sess.user2Id then none else d.2.userSession u })
    else
      (false, d.2)

/-- SessionManager.endSessionForUser (sessionManager.ts lines 175-188). -/
def endSessionForUser (userId : String) (st : SMState) : Bool × SMState :=
  let r := getActiveSession userId st
  match r.1 with
  | none => (false, r.2)
  | some s => endSession s.id .ended r.2

/-- SessionManager.getSessionPartner (sessionManager.ts lines 202-215). -/
def getSessionPartner (userId : String) (st : SMState) :
    Option String × SMState :=
  let r := getActiveSession userId st
  match r.1 with
  | none => (none, r.2)
  | some s => (some (if s.user1Id = userId then s.user2Id else s.user1Id), r.2)

/-- Match attempt result, from pairingEngine.ts (interface IMatchResult);
session ids are naturals as in the session-manager embedding. -/
structure IMatchResult where
  success : Bool
  sessionId : Option Nat
  partner : Option IQueueUser
  error : Option String
deriving DecidableEq

/-- Combined state acted on by the pairing engine: queue manager, session
manager, and the error-metrics sink (MetricsService.trackError events,
newest first). -/
structure EngineState where
  qm : QMState
  sm : SMState
  errMetrics : List (String × String)

/-- PairingEngine.matchUser (pairingEngine.ts lines 91-166): bail out when
the user waits in no queue; try pair extraction; on success create a
session; if session creation fails, re-enqueue both users (fresh
timestamps through addToQueue) and record a matching error metric;
otherwise delete both queue sidecars and report success. -/
def matchUser (userId : String) (queueType : SessionType) (lockOk : Bool)
    (now : Nat) (st : EngineState) : IMatchResult × EngineState :=
  if (isUserInQueue userId st.qm).1 = false then
    (⟨false, none, none, some "User not in queue"⟩, st)
  else
    let f := findMatch userId queueType lockOk now st.qm
    match f.1 with
    | none => (⟨false, none, none, some "No match found"⟩, { st with qm := f.2 })
    | some partner =>
      let c := createSession queueType userId partner.userId now st.sm
      match c.1 with
      | none =>
        let a1 := addToQueue userId "" queueType now f.2
        let a2 := addToQueue partner.userId partner.socketId queueType now a1.2
        (⟨false, none, none, some "Failed to create session"⟩,
          { qm := a2.2, sm := c.2,
            errMetrics := ("matching", "session_creation_failed") :: st.errMetrics })
      | some sess =>
        let r1 := removeFromQueue userId queueType f.2
        let r2 := removeFromQueue partner.userId queueType r1.2
        (⟨true, some sess.id, some partner, none⟩,
          { qm := r2.2, sm := c.2, errMetrics := st.errMetrics })

/-- PairingEngine.quickMatch (pairingEngine.ts lines 169-204): enqueue,
then immediately attempt matchUser; a failed match leaves the user
waiting. -/
def quickMatch (userId socketId : String) (queueType : SessionType)
    (lockOk : Bool) (now : Nat) (st : EngineState) :
    IMatchResult × EngineState :=
  let a := addToQueue userId socketId queueType now st.qm
  if a.1 = false then
    (⟨false, none, none, some "Failed to join queue"⟩, st)
  else
    let st1 : EngineState := { st with qm := a.2 }
    let m := matchUser userId queueType lockOk now st1
    if m.1.success then m
    else (⟨false, none, none, some "Waiting for match"⟩, m.2)

/-- Outcome of one inbound chat message, from chatHandler.ts: either an
error event emitted back to the sender, or a delivery to the partner
carrying sender id, text and timestamp. -/
inductive ChatOutcome where
  | errorToSender (message : String)
  | deliver (targetId senderId text : String) (timestamp : Nat)
deriving DecidableEq

/-- Whitespace as stripped by the JavaScript trim call in the handler's
emptiness guard: the ECMAScript WhiteSpace set (TAB, VT, FF, SP, NBSP,
ZWNBSP and the Unicode space-separator category) together with the
LineTerminator set (LF, CR, LS, PS). -/
def isWsChar (c : Char) : Bool :=
  c.toNat = 0x9 ∨ c.toNat = 0xA ∨ c.toNat = 0xB ∨ c.toNat = 0xC ∨
    c.toNat = 0xD ∨ c.toNat = 0x20 ∨ c.toNat = 0xA0 ∨ c.toNat = 0x1680 ∨
    (0x2000 ≤ c.toNat ∧ c.toNat ≤ 0x200A) ∨ c.toNat = 0x2028 ∨
    c.toNat = 0x2029 ∨ c.toNat = 0x202F ∨ c.toNat = 0x205F ∨
    c.toNat = 0x3000 ∨ c.toNat = 0xFEFF

/-- The guard of chatHandler.ts line 19: for a string payload, falsiness
or trimming to length zero holds exactly when every character is
ECMAScript whitespace (the empty string included). -/
def blankMessage (s : String) : Bool :=
  s.data.all isWsChar

/-- The CHAT_MESSAGE handler (chatHandler.ts lines 15-52): reject empty or
whitespace-only text, then text over 1000 characters, then a missing
session; otherwise emit the payload to the partner. The session store is
threaded because the partner lookup may self-heal. -/
def handleChatMessage (senderId message : String) (now : Nat)
    (st : SMState) : ChatOutcome × SMState :=
  if blankMessage message then
    (.errorToSender "Message cannot be empty", st)
  else if message.length > 1000 then
    (.errorToSender "Message too long (max 1000 characters)", st)
  else
    let p := getSessionPartner senderId st
    match p.1 with
    | none => (.errorToSender "No active session", p.2)
    | some partnerId => (.deliver partnerId senderId message now, p.2)

/-- Outcome of one inbound signaling message, from signalHandler.ts: a
relay of the opaque payload to the partner, an error event back to the
sender, or a silent drop. -/
inductive SignalOutcome (α : Type) where
  | relayToPartner (targetId senderId : String) (payload : α)
  | errorToSender (message : String)
  | silentDrop
deriving DecidableEq

/-- The CALL_OFFER handler (signalHandler.ts lines 14-34): with no partner
it emits a call error back to the sender; otherwise it relays the opaque
offer payload. -/
def handleCallOffer {α : Type} (senderId : String) (payload : α)
    (st : SMState) : SignalOutcome α × SMState :=
  let p := getSessionPartner senderId st
  match p.1 with
  | none => (.errorToSender "No active session", p.2)
  | some partnerId => (.relayToPartner partnerId senderId payload, p.2)

/-- The CALL_ANSWER handler (signalHandler.ts lines 37-57): same shape as
the offer handler. -/
def handleCallAnswer {α : Type} (senderId : String) (payload : α)
    (st : SMState) : SignalOutcome α × SMState :=
  let p := getSessionPartner senderId st
  match p.1 with
  | none => (.errorToSender "No active session", p.2)
  | some partnerId => (.relayToPartner partnerId senderId payload, p.2)

/-- The CALL_ICE_CANDIDATE handler (signalHandler.ts lines 60-76): with no
partner the message is silently ignored; otherwise the candidate payload
is relayed. -/
def handleCallIce {α : Type} (senderId : String) (payload : α)
    (st : SMState) : SignalOutcome α × SMState :=
  let p := getSessionPartner senderId st
  match p.1 with
  | none => (.silentDrop, p.2)
  | some partnerId => (.relayToPartner partnerId senderId payload, p.2)

/-- Whole-server state touched by the disconnect paths: queue manager,
session manager, the socket registry map (userId to registered socket ids;
an empty list stands for an absent map entry) and the presence flags. -/
structure ServerState where
  qm : QMState
  sm : SMState
  userSockets : String → List String
  presence : String → Bool

/-- PresenceTracker.setUserOffline. Modelled from the spec: the presence
record (src/services/friends/presenceTracker.ts is not in the source tree)
is a TTL key whose absence means offline, so going offline clears the
user's presence flag. -/
def setUserOffline (userId : String) (st : ServerState) : ServerState :=
  { st with presence := fun u => if u = userId then false else st.presence u }

/-- SocketManager.unregisterSocket (socketManager.ts lines 34-49): remove
the socket id from the user's set; only when the set becomes empty is the
entry dropped and the user marked offline. -/
def unregisterSocket (userId socketId : String) (st : ServerState) :
    ServerState :=
  match st.userSockets userId with
  | [] => st
  | l =>
    let l1 := l.erase socketId
    if l1.isEmpty then
      setUserOffline userId
        { st with userSockets := fun u => if u = userId then [] else st.userSockets u }
    else
      { st with userSockets := fun u => if u = userId then l1 else st.userSockets u }

/-- WebSocketServer.cleanupUserSession (wsServer.ts lines 137-157): on any
disconnect, remove the user from all queues, end the active session, and
set presence offline unconditionally. -/
def cleanupUserSession (userId : String) (st : ServerState) : ServerState :=
  let qm1 := removeFromAllQueues userId st.qm
  let e := endSessionForUser userId st.sm
  setUserOffline userId { st with qm := qm1, sm := e.2 }

/-- Server instance descriptor, from loadBalancer.ts (interface
IServerInstance). Load figures are rationals, heartbeats are integer
millisecond timestamps. -/
structure IServerInstance where
  instanceId : String
  host : String
  port : Nat
  activeConnections : ℚ
  cpuUsage : ℚ
  memoryUsage : ℚ
  lastHeartbeat : ℤ
  isHealthy : Bool
deriving DecidableEq

/-- The load score of loadBalancer.ts lines 271-277: forty percent CPU,
thirty percent memory, thirty percent of connections over one hundred. -/
def loadScore (i : IServerInstance) : ℚ :=
  i.cpuUsage * (4 / 10) + i.memoryUsage * (3 / 10) +
    i.activeConnections / 100 * (3 / 10)

/-- LoadBalancer.getHealthyInstances (loadBalancer.ts lines 224-259): keep
the scanned records whose heartbeat is within thirty seconds and whose
healthy flag is set, in scan order. -/
def getHealthyInstances (now : ℤ) (l : List IServerInstance) :
    List IServerInstance :=
  l.filter (fun i => now - i.lastHeartbeat < 30000 ∧ i.isHealthy)

/-- The head of a stable ascending sort by load score: the first element
attaining the minimal score. JavaScript Array.sort is stable, so sorting
by the score comparator and taking index zero keeps the earliest of the
tied minimal instances. -/
def firstMinByScore (best : IServerInstance) (l : List IServerInstance) :
    IServerInstance :=
  l.foldl (fun b i => if loadScore i < loadScore b then i else b) best

/-- LoadBalancer.getLeastLoadedInstance (loadBalancer.ts lines 262-287):
none when no healthy instance exists, otherwise the first element of the
healthy list sorted stably by ascending load score. -/
def getLeastLoadedInstance (now : ℤ) (l : List IServerInstance) :
    Option IServerInstance :=
  match getHealthyInstances now l with
  | [] => none
  | h :: t => some (firstMinByScore h t)

/-- The session-index consistency invariant: every cached session record
has both members' reverse pointers set to it, every reverse pointer leads
to a live record that contains its user, and ids at or above the
allocation counter are unused. -/
def PointersOk (st : SMState) : Prop :=
  (∀ sid s, st.sessions sid = some s →
    st.userSession s.user1Id = some sid ∧ st.userSession s.user2Id = some sid)
  ∧ (∀ u sid, st.userSession u = some sid →
      ∃ s, st.sessions sid = some s ∧ (u = s.user1Id ∨ u = s.user2Id))
  ∧ (∀ sid, st.nextId ≤ sid → st.sessions sid = none)

/-- States reachable from the empty store by the SessionManager operations
named in the specification: creation, ending, and the self-healing active
lookup. -/
inductive SMReach : SMState → Prop where
  | init : SMReach SMState.init
  | create (t : SessionType) (u1 u2 : String) (now : Nat) (st : SMState) :
      SMReach st → SMReach (createSession t u1 u2 now st).2
  | endSess (sid : Nat) (status : SessionStatus) (st : SMState) :
      SMReach st → SMReach (endSession sid status st).2
  | lookup (u : String) (st : SMState) :
      SMReach st → SMReach (getActiveSession u st).2

/-- A queue-manager state with users a (score 0) and b (score 1) waiting
in the video queue, sidecar blobs present for both. -/
def qmAB : QMState :=
  (addToQueue "b" "sb" .video 1 (addToQueue "a" "sa" .video 0 QMState.init).2).2

/-- A session-manager state with one active session (id 0) pairing a and
b. -/
def smAB : SMState :=
  { sessions := fun i => if i = 0 then some ⟨0, .text, "a", "b", 0⟩ else none,
    userSession := fun u => if u = "a" ∨ u = "b" then some 0 else none,
    db := fun i => if i = 0 then some ⟨.text, "a", "b", .active⟩ else none,
    nextId := 1 }

/-- A session-manager state in which b is already paired with c in an
active session, so that session creation for any pair containing b is
refused. -/
def smBC : SMState :=
  { sessions := fun i => if i = 0 then some ⟨0, .video, "b", "c", 0⟩ else none,
    userSession := fun u => if u = "b" ∨ u = "c" then some 0 else none,
    db := fun i => if i = 0 then some ⟨.video, "b", "c", .active⟩ else none,
    nextId := 1 }

/-- Engine state in which a and b wait in the video queue but b already
holds an active session, making session creation fail after extraction. -/
def engC4 : EngineState :=
  { qm := qmAB, sm := smBC, errMetrics := [] }

/-- A session-manager state in which a is already paired with c in an
active session, so that session creation for any pair containing a is
refused. -/
def smAC : SMState :=
  { sessions := fun i => if i = 0 then some ⟨0, .video, "a", "c", 0⟩ else none,
    userSession := fun u => if u = "a" ∨ u = "c" then some 0 else none,
    db := fun i => if i = 0 then some ⟨.video, "a", "c", .active⟩ else none,
    nextId := 1 }

/-- Engine state in which a and b wait in the video queue and the older
partner a already holds an active session: a caller b extracted as the
newer of the top two (the usual quickMatch shape) hits a failing session
creation. -/
def engC4b : EngineState :=
  { qm := qmAB, sm := smAC, errMetrics := [] }

/-- Server state in which user a holds two registered sockets and is
online. -/
def srvTwoTabs : ServerState :=
  { qm := QMState.init, sm := SMState.init,
    userSockets := fun u => if u = "a" then ["s1", "s2"] else [],
    presence := fun u => if u = "a" then true else false }

/-- A queue-manager state with user u waiting in the audio queue only,
sidecar blob present. -/
def qmAudioU : QMState :=
  (addToQueue "u" "s" .audio 6 QMState.init).2

/-- A healthy instance with load score 4 and the later heartbeat. -/
def inst1 : IServerInstance :=
  { instanceId := "i1", host := "h1", port := 1, activeConnections := 0,
    cpuUsage := 10, memoryUsage := 0, lastHeartbeat := 20000, isHealthy := true }

/-- A healthy instance with the same load score 4 but the earlier (lower)
heartbeat. -/
def inst2 : IServerInstance :=
  { instanceId := "i2", host := "h2", port := 2, activeConnections := 0,
    cpuUsage := 10, memoryUsage := 0, lastHeartbeat := 10000, isHealthy := true }

/-! Sorted-set helper lemmas. -/

theorem zrem_mem_ne (m : String) :
    ∀ q : ZSet, ∀ e ∈ zrem m q, e.1 ≠ m := by
  intro q
  induction q with
  | nil => intro e he; cases he
  | cons a rest ih =>
    intro e he
    by_cases ha : a.1 = m
    · exact ih e (by simpa [zrem, ha] using he)
    · rcases (by simpa [zrem, ha] using he : e = a ∨ e ∈ zrem m rest) with h | h
      · exact h ▸ ha
      · exact ih e h

theorem zrem_eq_of_forall_ne (m : String) :
    ∀ q : ZSet, (∀ e ∈ q, e.1 ≠ m) → zrem m q = q := by
  intro q
  induction q with
  | nil => intro; rfl
  | cons a rest ih =>
    intro h
    have ha : a.1 ≠ m := h a (List.mem_cons_self a rest)
    simp [zrem, ha, ih (fun e he => h e (List.mem_cons_of_mem a he))]

theorem zscore_eq_none (m : String) :
    ∀ q : ZSet, (∀ e ∈ q, e.1 ≠ m) → zscore q m = none := by
  intro q
  induction q with
  | nil => intro; rfl
  | cons a rest ih =>
    intro h
    have ha : a.1 ≠ m := h a (List.mem_cons_self a rest)
    simp [zscore, ha, ih (fun e he => h e (List.mem_cons_of_mem a he))]

theorem zscore_zinsert_self (m : String) (s : Nat) :
    ∀ q : ZSet, (∀ e ∈ q, e.1 ≠ m) → zscore (zinsert m s q) m = some s := by
  intro q
  induction q with
  | nil => intro; simp [zinsert, zscore]
  | cons a rest ih =>
    intro h
    have ha : a.1 ≠ m := h a (List.mem_cons_self a rest)
    by_cases hc : s < a.2 ∨ (s = a.2 ∧ memberLt m.data a.1.data = true)
    · rw [zinsert, if_pos hc]
      simp [zscore]
    · rw [zinsert, if_neg hc, zscore, if_neg ha]
      exact ih (fun e he => h e (List.mem_cons_of_mem a he))

theorem zscore_zadd_self (m : String) (s : Nat) (q : ZSet) :
    zscore (zadd m s q) m = some s :=
  zscore_zinsert_self m s (zrem m q) (zrem_mem_ne m q)

theorem zscore_zrem_ne (m m' : String) (h : m' ≠ m) :
    ∀ q : ZSet, zscore (zrem m q) m' = zscore q m' := by
  intro q
  induction q with
  | nil => rfl
  | cons a rest ih =>
    by_cases ha : a.1 = m
    · have ham : a.1 ≠ m' := by rw [ha]; exact Ne.symm h
      rw [zrem, if_pos ha, ih, zscore, if_neg ham]
    · rw [zrem, if_neg ha, zscore, zscore, ih]

theorem zscore_zinsert_ne (m m' : String) (s : Nat) (h : m' ≠ m) :
    ∀ q : ZSet, zscore (zinsert m s q) m' = zscore q m' := by
  intro q
  induction q with
  | nil =>
    show zscore [(m, s)] m' = none
    rw [zscore, if_neg (Ne.symm h)]
    rfl
  | cons a rest ih =>
    by_cases hc : s < a.2 ∨ (s = a.2 ∧ memberLt m.data a.1.data = true)
    · rw [zinsert, if_pos hc, zscore, if_neg (Ne.symm h)]
    · rw [zinsert, if_neg hc, zscore, zscore]
      by_cases ham : a.1 = m'
      · rw [if_pos ham, if_pos ham]
      · rw [if_neg ham, if_neg ham, ih]

theorem zscore_zadd_ne (m m' : String) (s : Nat) (h : m' ≠ m) (q : ZSet) :
    zscore (zadd m s q) m' = zscore q m' := by
  rw [zadd, zscore_zinsert_ne m m' s h, zscore_zrem_ne m m' h]

/-! Claim C2: cross-modality enqueue deduplication. -/

/-- C2, counterexample. The claim states that a user already waiting in
some modality is refused by addToQueue for every modality. In the code the
duplicate probe reads only the target modality's sorted set: with u
waiting in the video queue, an audio enqueue succeeds and u then waits in
two queues at once. -/
theorem addToQueue_cross_modality_cex :
    (addToQueue "u" "s2" .audio 6 (addToQueue "u" "s1" .video 5 QMState.init).2).1 = true
    ∧ zscore ((addToQueue "u" "s2" .audio 6
        (addToQueue "u" "s1" .video 5 QMState.init).2).2.queues .video) "u" = some 5
    ∧ zscore ((addToQueue "u" "s2" .audio 6
        (addToQueue "u" "s1" .video 5 QMState.init).2).2.queues .audio) "u" = some 6 := by
  decide

/-- C2, amended. addToQueue refuses exactly when the user already holds an
entry in the same modality queue: the refusal leaves the whole state
untouched, and a successful insert records score now in the target queue
while every other modality queue is unchanged — so a user waiting in a
different modality is admitted and may wait in two queues. -/
theorem addToQueue_same_modality_dedup (st : QMState) (u s : String)
    (m : SessionType) (now : Nat) :
    ((addToQueue u s m now st).1 = false ↔ (zscore (st.queues m) u).isSome = true)
    ∧ ((zscore (st.queues m) u).isSome = true → (addToQueue u s m now st).2 = st)
    ∧ ((zscore (st.queues m) u).isSome = false →
        zscore ((addToQueue u s m now st).2.queues m) u = some now
        ∧ ∀ t, t ≠ m → (addToQueue u s m now st).2.queues t = st.queues t) := by
  by_cases h : (zscore (st.queues m) u).isSome = true
  · refine ⟨by simp [addToQueue, h], fun _ => by simp [addToQueue, h], fun hf => ?_⟩
    rw [h] at hf; cases hf
  · refine ⟨by simp [addToQueue, h], fun ht => absurd ht h, fun _ => ?_⟩
    constructor
    · simp only [addToQueue, h, Bool.false_eq_true, if_false]
      simp [zscore_zadd_self]
    · intro t ht
      simp only [addToQueue, h, Bool.false_eq_true, if_false]
      simp [ht]

/-- C2, witness for the amended theorem at a concrete input: u waits in
the audio queue, a second audio enqueue is refused and changes nothing. -/
theorem addToQueue_same_modality_dedup_witness :
    ((addToQueue "u" "s2" .audio 9 qmAudioU).1 = false ↔
      (zscore (qmAudioU.queues .audio) "u").isSome = true)
    ∧ ((zscore (qmAudioU.queues .audio) "u").isSome = true →
        (addToQueue "u" "s2" .audio 9 qmAudioU).2 = qmAudioU) := by
  refine ⟨(addToQueue_same_modality_dedup qmAudioU "u" "s2" .audio 9).1, ?_⟩
  exact (addToQueue_same_modality_dedup qmAudioU "u" "s2" .audio 9).2.1

/-! Claim C10: the sidecar record lives under one modality-independent
per-user key. -/

/-- C10. The sidecar blob written by addToQueue for any modality is stored
under the single video-prefixed per-user key and read back by getUserData
regardless of the modality used to enqueue; removeFromQueue for any
modality unconditionally deletes that shared record — returning false when
the user holds no entry in that modality — while leaving any other
modality's queue entries in place. -/
theorem sidecar_shared_key_per_user (st : QMState) (u s : String)
    (m mr : SessionType) (now : Nat) :
    ((zscore (st.queues m) u).isSome = false →
      (addToQueue u s m now st).2.kv (QUEUE_VIDEO_KEY ++ ":user:" ++ u) = some ⟨u, s, now⟩
      ∧ getUserData u (addToQueue u s m now st).2 = some ⟨u, s, now⟩)
    ∧ getUserData u (removeFromQueue u mr st).2 = none
    ∧ ((zscore (st.queues mr) u).isSome = false → (removeFromQueue u mr st).1 = false)
    ∧ (mr ≠ m → (removeFromQueue u mr st).2.queues m = st.queues m) := by
  refine ⟨fun h => ?_, ?_, fun h => ?_, fun h => ?_⟩
  · constructor
    · simp [addToQueue, h, userDataKey]
    · simp [addToQueue, h, getUserData, userDataKey]
  · simp [removeFromQueue, getUserData]
  · simp [removeFromQueue, h]
  · simp [removeFromQueue, Ne.symm h]

/-- C10, witness: u waits in the audio queue; a video removal reports
false yet destroys u's sidecar record, while the audio entry survives. -/
theorem sidecar_shared_key_per_user_witness :
    getUserData "u" (removeFromQueue "u" .video qmAudioU).2 = none
    ∧ (removeFromQueue "u" .video qmAudioU).1 = false
    ∧ (removeFromQueue "u" .video qmAudioU).2.queues .audio = qmAudioU.queues .audio
    ∧ zscore (qmAudioU.queues .audio) "u" = some 6 := by
  refine ⟨(sidecar_shared_key_per_user qmAudioU "u" "s" .audio .video 6).2.1,
    (sidecar_shared_key_per_user qmAudioU "u" "s" .audio .video 6).2.2.1 (by decide),
    (sidecar_shared_key_per_user qmAudioU "u" "s" .audio .video 6).2.2.2 (by decide),
    by decide⟩

/-! Session-manager frame lemmas. -/

theorem getActiveSession_state (u : String) (st : SMState) :
    (getActiveSession u st).2.sessions = st.sessions
    ∧ (getActiveSession u st).2.db = st.db
    ∧ (getActiveSession u st).2.nextId = st.nextId
    ∧ (∀ v, (getActiveSession u st).2.userSession v = st.userSession v
        ∨ (getActiveSession u st).2.userSession v = none) := by
  cases hp : st.userSession u with
  | none => exact ⟨by simp [getActiveSession, hp], by simp [getActiveSession, hp],
      by simp [getActiveSession, hp], fun v => Or.inl (by simp [getActiveSession, hp])⟩
  | some sid =>
    cases hs : st.sessions sid with
    | none =>
      refine ⟨by simp [getActiveSession, hp, hs], by simp [getActiveSession, hp, hs],
        by simp [getActiveSession, hp, hs], fun v => ?_⟩
      by_cases hv : v = u
      · right; simp [getActiveSession, hp, hs, hv]
      · left; simp [getActiveSession, hp, hs, hv]
    | some s => exact ⟨by simp [getActiveSession, hp, hs], by simp [getActiveSession, hp, hs],
        by simp [getActiveSession, hp, hs], fun v => Or.inl (by simp [getActiveSession, hp, hs])⟩

theorem getSessionPartner_state (u : String) (st : SMState) :
    (getSessionPartner u st).2 = (getActiveSession u st).2 := by
  unfold getSessionPartner
  cases hp : (getActiveSession u st).1 <;> simp [hp]

/-! Claim C6: chat-message validation and relay. -/

/-- C6, counterexample. The claim admits every text that is nonempty, at
most 1000 characters and sent inside a session. A single-space message is
none of the three rejection cases, yet the handler's trim guard rejects it
with the emptiness error instead of delivering it to the partner. -/
theorem chat_whitespace_cex :
    (handleChatMessage "a" " " 7 smAB).1 = ChatOutcome.errorToSender "Message cannot be empty"
    ∧ (" " : String) ≠ ""
    ∧ (" " : String).length ≤ 1000
    ∧ (getSessionPartner "a" smAB).1 = some "b" := by
  decide

/-- C6, amended. An inbound chat message is rejected with an error event
to the sender when the text is empty or whitespace-only, or longer than
1000 characters, or when the sender has no active session; otherwise it is
delivered to exactly the session partner with sender id, text and
timestamp. The handler writes nothing: session records and database rows
are untouched and a reverse pointer can at most be self-healed away, so
the text body is never persisted. -/
theorem chat_message_validation (st : SMState) (sender msg : String) (now : Nat) :
    (blankMessage msg = true →
      handleChatMessage sender msg now st = (.errorToSender "Message cannot be empty", st))
    ∧ (blankMessage msg = false → msg.length > 1000 →
      handleChatMessage sender msg now st = (.errorToSender "Message too long (max 1000 characters)", st))
    ∧ (blankMessage msg = false → ¬ msg.length > 1000 →
        (getSessionPartner sender st).1 = none →
        (handleChatMessage sender msg now st).1 = .errorToSender "No active session")
    ∧ (∀ pid, blankMessage msg = false → ¬ msg.length > 1000 →
        (getSessionPartner sender st).1 = some pid →
        (handleChatMessage sender msg now st).1 = .deliver pid sender msg now)
    ∧ (handleChatMessage sender msg now st).2.sessions = st.sessions
    ∧ (handleChatMessage sender msg now st).2.db = st.db
    ∧ (∀ v, (handleChatMessage sender msg now st).2.userSession v = st.userSession v
        ∨ (handleChatMessage sender msg now st).2.userSession v = none) := by
  by_cases hb : blankMessage msg
  · refine ⟨fun _ => by simp [handleChatMessage, hb], fun hf => absurd hb (by simp [hf]),
      fun hf => absurd hb (by simp [hf]), fun pid hf => absurd hb (by simp [hf]),
      ?_, ?_, fun v => ?_⟩
    · simp [handleChatMessage, hb]
    · simp [handleChatMessage, hb]
    · simp [handleChatMessage, hb]
  · by_cases hl : msg.length > 1000
    · refine ⟨fun ht => absurd ht (by simp [hb]), fun _ _ => by simp [handleChatMessage, hb, hl],
        fun _ hf => absurd hl hf, fun pid _ hf => absurd hl hf, ?_, ?_, fun v => ?_⟩
      · simp [handleChatMessage, hb, hl]
      · simp [handleChatMessage, hb, hl]
      · simp [handleChatMessage, hb, hl]
    · have hstate : (handleChatMessage sender msg now st).2 = (getActiveSession sender st).2 := by
        cases hp : (getSessionPartner sender st).1 with
        | none => simp [handleChatMessage, hb, hl, hp, getSessionPartner_state]
        | some pid => simp [handleChatMessage, hb, hl, hp, getSessionPartner_state]
      refine ⟨fun ht => absurd ht (by simp [hb]), fun _ hf => absurd hf hl,
        fun _ _ hp => by simp [handleChatMessage, hb, hl, hp],
        fun pid _ _ hp => by simp [handleChatMessage, hb, hl, hp], ?_, ?_, fun v => ?_⟩
      · rw [hstate]; exact (getActiveSession_state sender st).1
      · rw [hstate]; exact (getActiveSession_state sender st).2.1
      · rw [hstate]; exact (getActiveSession_state sender st).2.2.2 v

/-- C6, witness for the amended theorem: a valid two-character message in
an active session is delivered to the partner with the payload fields. -/
theorem chat_message_validation_witness :
    (handleChatMessage "a" "hi" 7 smAB).1 = ChatOutcome.deliver "b" "a" "hi" 7 :=
  (chat_message_validation smAB "a" "hi" 7).2.2.2.1 "b" (by decide) (by decide) (by decide)

/-! Claim C7: signaling relay on a missing partner. -/

/-- C7, counterexample. The claim says all three signaling messages are
dropped silently when the sender has no partner. Only the ICE handler is
silent: the offer and answer handlers emit a call error event back to the
sender. -/
theorem signal_no_partner_cex :
    (handleCallOffer "a" (0 : Nat) SMState.init).1 = SignalOutcome.errorToSender "No active session"
    ∧ (handleCallAnswer "a" (0 : Nat) SMState.init).1 = SignalOutcome.errorToSender "No active session"
    ∧ (handleCallIce "a" (0 : Nat) SMState.init).1 = SignalOutcome.silentDrop
    ∧ (getSessionPartner "a" SMState.init).1 = none := by
  decide

/-- C7, amended. With no session partner, call:ice is dropped silently
while call:offer and call:answer emit a call error event back to the
sender; with a partner, each of the three handlers relays the opaque
payload unchanged to exactly the partner. -/
theorem signal_relay_spec {α : Type} (st : SMState) (sender : String) (payload : α) :
    ((getSessionPartner sender st).1 = none →
      (handleCallOffer sender payload st).1 = .errorToSender "No active session"
      ∧ (handleCallAnswer sender payload st).1 = .errorToSender "No active session"
      ∧ (handleCallIce sender payload st).1 = .silentDrop)
    ∧ (∀ pid, (getSessionPartner sender st).1 = some pid →
      (handleCallOffer sender payload st).1 = .relayToPartner pid sender payload
      ∧ (handleCallAnswer sender payload st).1 = .relayToPartner pid sender payload
      ∧ (handleCallIce sender payload st).1 = .relayToPartner pid sender payload) := by
  constructor
  · intro hp
    exact ⟨by simp [handleCallOffer, hp], by simp [handleCallAnswer, hp],
      by simp [handleCallIce, hp]⟩
  · intro pid hp
    exact ⟨by simp [handleCallOffer, hp], by simp [handleCallAnswer, hp],
      by simp [handleCallIce, hp]⟩

/-- C7, witness: with an active session the offer is relayed to the
partner; with no session the ICE candidate is silently dropped. -/
theorem signal_relay_spec_witness :
    (handleCallOffer "a" (0 : Nat) smAB).1 = SignalOutcome.relayToPartner "b" "a" 0
    ∧ (handleCallIce "a" (0 : Nat) SMState.init).1 = SignalOutcome.silentDrop :=
  ⟨((signal_relay_spec smAB "a" 0).2 "b" (by decide)).1,
    ((signal_relay_spec SMState.init "a" 0).1 (by decide)).2.2⟩

/-! Claim C8: presence on disconnect. -/

/-- C8, counterexample. User a holds two registered sockets; the websocket
server's disconnect cleanup still sets presence offline unconditionally,
although another registered socket remains. -/
theorem presence_offline_cex :
    (cleanupUserSession "a" srvTwoTabs).presence "a" = false
    ∧ srvTwoTabs.userSockets "a" = ["s1", "s2"]
    ∧ (cleanupUserSession "a" srvTwoTabs).userSockets "a" = ["s1", "s2"]
    ∧ srvTwoTabs.presence "a" = true := by
  decide

/-- C8, amended. The socket registry's unregisterSocket is multi-tab
aware: removing one of several registered sockets keeps presence
untouched, and only removing the last socket clears the entry and marks
the user offline. The websocket server's disconnect cleanup, however,
calls setUserOffline unconditionally, so presence goes offline on any
disconnect regardless of how many sockets remain registered. -/
theorem presence_offline_spec (st : ServerState) (u sock : String) :
    (st.userSockets u ≠ [] → (st.userSockets u).erase sock ≠ [] →
      (unregisterSocket u sock st).presence = st.presence
      ∧ (unregisterSocket u sock st).userSockets u = (st.userSockets u).erase sock)
    ∧ (st.userSockets u ≠ [] → (st.userSockets u).erase sock = [] →
      (unregisterSocket u sock st).presence u = false
      ∧ (unregisterSocket u sock st).userSockets u = [])
    ∧ (cleanupUserSession u st).presence u = false
    ∧ (cleanupUserSession u st).userSockets = st.userSockets := by
  refine ⟨?_, ?_, by simp [cleanupUserSession, setUserOffline], rfl⟩
  · intro hne hke
    cases hl : st.userSockets u with
    | nil => exact absurd hl hne
    | cons a as =>
      rw [hl] at hke
      have hkb : ((a :: as).erase sock).isEmpty = false := by
        cases hc : (a :: as).erase sock with
        | nil => exact absurd hc hke
        | cons b bs => rfl
      constructor
      · simp [unregisterSocket, hl, hkb]
      · simp [unregisterSocket, hl, hkb]
  · intro hne hke
    cases hl : st.userSockets u with
    | nil => exact absurd hl hne
    | cons a as =>
      rw [hl] at hke
      have hkb : ((a :: as).erase sock).isEmpty = true := by rw [hke]; rfl
      constructor
      · simp [unregisterSocket, hl, hkb, setUserOffline]
      · simp [unregisterSocket, hl, hkb, setUserOffline]

/-- C8, witness: unregistering one of a's two sockets leaves presence
untouched, while the server cleanup sets it offline. -/
theorem presence_offline_spec_witness :
    ((unregisterSocket "a" "s1" srvTwoTabs).presence = srvTwoTabs.presence
      ∧ (unregisterSocket "a" "s1" srvTwoTabs).userSockets "a" =
          (srvTwoTabs.userSockets "a").erase "s1")
    ∧ (cleanupUserSession "a" srvTwoTabs).presence "a" = false :=
  ⟨(presence_offline_spec srvTwoTabs "a" "s1").1 (by decide) (by decide),
    (presence_offline_spec srvTwoTabs "a" "s1").2.2.1⟩

/-! Claim C5: endSession idempotence. -/

/-- C5. Ending an active session (record cached, database row active)
returns true; every further endSession call on the same id returns false
and leaves the store exactly as the first call left it, so the state
converges to the ended state. -/
theorem endSession_idempotent (st : SMState) (sid : Nat)
    (status status2 : SessionStatus) (sess : IActiveSession) (row : DbSession)
    (h1 : st.sessions sid = some sess) (h2 : st.db sid = some row)
    (h3 : row.status = .active) :
    (endSession sid status st).1 = true
    ∧ endSession sid status2 (endSession sid status st).2 =
        (false, (endSession sid status st).2) := by
  constructor
  · simp [endSession, getSessionById, h1, dbEndSession, h2, h3]
  · have hnone : (endSession sid status st).2.sessions sid = none := by
      simp [endSession, getSessionById, h1, dbEndSession, h2, h3]
    rw [endSession, getSessionById, hnone]

/-- C5, witness: ending session 0 of the concrete paired state returns
true once, then false with the state fixed. -/
theorem endSession_idempotent_witness :
    (endSession 0 .ended smAB).1 = true
    ∧ endSession 0 .abandoned (endSession 0 .ended smAB).2 =
        (false, (endSession 0 .ended smAB).2) :=
  endSession_idempotent smAB 0 .ended .abandoned ⟨0, .text, "a", "b", 0⟩
    ⟨.text, "a", "b", .active⟩ (by decide) (by decide) (by decide)

/-! Claim C9: least-loaded instance selection. -/

theorem firstMinByScore_spec :
    ∀ (l : List IServerInstance) (b : IServerInstance),
    firstMinByScore b l ∈ b :: l
    ∧ (∀ j ∈ b :: l, loadScore (firstMinByScore b l) ≤ loadScore j)
    ∧ ∃ pre post, b :: l = pre ++ firstMinByScore b l :: post
        ∧ ∀ j ∈ pre, loadScore (firstMinByScore b l) < loadScore j := by
  intro l
  induction l with
  | nil =>
    intro b
    refine ⟨List.mem_cons_self b [], ?_, [], [], rfl, by simp⟩
    intro j hj
    rw [List.mem_singleton.mp hj]
    exact le_refl _
  | cons i rest ih =>
    intro b
    have hstep : firstMinByScore b (i :: rest) =
        firstMinByScore (if loadScore i < loadScore b then i else b) rest := rfl
    by_cases hc : loadScore i < loadScore b
    · rw [hstep, if_pos hc]
      obtain ⟨hmem, hle, pre, post, hdec, hpre⟩ := ih i
      have hri : loadScore (firstMinByScore i rest) ≤ loadScore i :=
        hle i (List.mem_cons_self i rest)
      refine ⟨List.mem_cons_of_mem b hmem, ?_, b :: pre, post, ?_, ?_⟩
      · intro j hj
        rcases List.mem_cons.mp hj with hj | hj
        · rw [hj]; exact le_of_lt (lt_of_le_of_lt hri hc)
        · exact hle j hj
      · rw [List.cons_append]
        exact congrArg (List.cons b) hdec
      · intro j hj
        rcases List.mem_cons.mp hj with hj | hj
        · rw [hj]; exact lt_of_le_of_lt hri hc
        · exact hpre j hj
    · rw [hstep, if_neg hc]
      have hbi : loadScore b ≤ loadScore i := not_lt.mp hc
      obtain ⟨hmem, hle, pre, post, hdec, hpre⟩ := ih b
      refine ⟨?_, ?_, ?_⟩
      · rcases List.mem_cons.mp hmem with hm | hm
        · rw [hm]; exact List.mem_cons_self b (i :: rest)
        · exact List.mem_cons_of_mem b (List.mem_cons_of_mem i hm)
      · intro j hj
        rcases List.mem_cons.mp hj with hj | hj
        · rw [hj]; exact hle b (List.mem_cons_self b rest)
        · rcases List.mem_cons.mp hj with hj | hj
          · rw [hj]; exact le_trans (hle b (List.mem_cons_self b rest)) hbi
          · exact hle j (List.mem_cons_of_mem b hj)
      · cases pre with
        | nil =>
          have hb : b = firstMinByScore b rest := (List.cons.injEq _ _ _ _).mp hdec |>.1
          refine ⟨[], i :: rest, ?_, by simp⟩
          rw [List.nil_append, ← hb]
        | cons p pre2 =>
          have hinj := (List.cons.injEq _ _ _ _).mp (by simpa using hdec)
          have hpb : p = b := hinj.1.symm
          have hrest : rest = pre2 ++ firstMinByScore b rest :: post := hinj.2
          have hrb : loadScore (firstMinByScore b rest) < loadScore b :=
            hpre p (List.mem_cons_self p pre2) |>.trans_le (le_of_eq (by rw [hpb]))
          refine ⟨b :: i :: pre2, post, ?_, ?_⟩
          · rw [List.cons_append, List.cons_append]
            exact congrArg (List.cons b) (congrArg (List.cons i) hrest)
          · intro j hj
            rcases List.mem_cons.mp hj with hj | hj
            · rw [hj]; exact hrb
            · rcases List.mem_cons.mp hj with hj | hj
              · rw [hj]; exact lt_of_lt_of_le hrb hbi
              · exact hpre j (List.mem_cons_of_mem p hj)

/-- C9, counterexample. Two healthy instances with equal load scores: the
first one scanned has the later (higher) heartbeat, yet it is returned,
because the stable sort has no lastHeartbeat tie-break. The claim demands
the instance with the lower heartbeat, which is the second one. -/
theorem leastLoaded_tiebreak_cex :
    getLeastLoadedInstance 25000 [inst1, inst2] = some inst1
    ∧ loadScore inst1 = loadScore inst2
    ∧ inst2.lastHeartbeat < inst1.lastHeartbeat
    ∧ inst1.instanceId ≠ inst2.instanceId := by
  refine ⟨?_, ?_, by decide, by decide⟩
  · norm_num [getLeastLoadedInstance, getHealthyInstances, firstMinByScore,
      inst1, inst2, loadScore]
  · norm_num [loadScore, inst1, inst2]

/-- C9, amended. getLeastLoadedInstance returns a healthy instance whose
weighted load score (forty percent CPU, thirty percent memory, thirty
percent of connections over one hundred) is minimal; equal scores are
resolved in favour of the instance appearing first in the scanned list
(JavaScript sort stability), not by the lower lastHeartbeat. -/
theorem leastLoaded_min_score (now : ℤ) (l : List IServerInstance)
    (r : IServerInstance) (h : getLeastLoadedInstance now l = some r) :
    r ∈ getHealthyInstances now l
    ∧ (∀ j ∈ getHealthyInstances now l, loadScore r ≤ loadScore j)
    ∧ ∃ pre post, getHealthyInstances now l = pre ++ r :: post
        ∧ ∀ j ∈ pre, loadScore r < loadScore j := by
  unfold getLeastLoadedInstance at h
  cases hh : getHealthyInstances now l with
  | nil => rw [hh] at h; cases h
  | cons a t =>
    rw [hh] at h
    have hr : firstMinByScore a t = r := by simpa using h
    obtain ⟨hmem, hle, pre, post, hdec, hpre⟩ := firstMinByScore_spec t a
    rw [hr] at hmem hle hdec hpre
    exact ⟨hmem, hle, pre, post, hdec, hpre⟩

/-- C9, witness: on the concrete two-instance fleet the returned instance
is healthy and score-minimal. -/
theorem leastLoaded_min_score_witness :
    inst1 ∈ getHealthyInstances 25000 [inst1, inst2]
    ∧ ∀ j ∈ getHealthyInstances 25000 [inst1, inst2], loadScore inst1 ≤ loadScore j :=
  ⟨(leastLoaded_min_score 25000 [inst1, inst2] inst1 (by norm_num [getLeastLoadedInstance,
      getHealthyInstances, firstMinByScore, inst1, inst2, loadScore])).1,
    (leastLoaded_min_score 25000 [inst1, inst2] inst1 (by norm_num [getLeastLoadedInstance,
      getHealthyInstances, firstMinByScore, inst1, inst2, loadScore])).2.1⟩

/-! Claim C1: pair extraction removes both top entries or none. -/

theorem not_mem_zmembers_forall_ne (m : String) (q : ZSet)
    (h : m ∉ zmembers q) : ∀ e ∈ q, e.1 ≠ m := by
  intro e he hm
  exact h (hm ▸ List.mem_map_of_mem (fun e => e.1) he)

/-- C1. After findMatch, exactly one of three faithful outcomes holds:
the state is fully unchanged with nil returned; or the two oldest entries
of the modality queue are both removed and the rehydrated partner sidecar
is returned; or (failed rehydration) both top entries are removed, the
caller is re-inserted as a fresh entry with an empty socket id and an
updated sidecar, and nil is returned. In no case is exactly one of the
top-two entries removed. -/
theorem findMatch_pair_extraction (st : QMState) (u : String)
    (qt : SessionType) (lockOk : Bool) (now : Nat)
    (hnd : (zmembers (st.queues qt)).Nodup) :
    ((findMatch u qt lockOk now st).2 = st ∧ (findMatch u qt lockOk now st).1 = none)
    ∨ (∃ e0 e1 rest, st.queues qt = e0 :: e1 :: rest
        ∧ (u = e0.1 ∨ u = e1.1)
        ∧ (∃ pd, (findMatch u qt lockOk now st).1 = some pd
            ∧ getUserData (if e0.1 = u then e1.1 else e0.1) st = some pd)
        ∧ (findMatch u qt lockOk now st).2.queues qt = rest
        ∧ (∀ t, t ≠ qt → (findMatch u qt lockOk now st).2.queues t = st.queues t)
        ∧ (findMatch u qt lockOk now st).2.kv = st.kv)
    ∨ (∃ e0 e1 rest, st.queues qt = e0 :: e1 :: rest
        ∧ (u = e0.1 ∨ u = e1.1)
        ∧ (findMatch u qt lockOk now st).1 = none
        ∧ getUserData (if e0.1 = u then e1.1 else e0.1) st = none
        ∧ (findMatch u qt lockOk now st).2.queues qt = zinsert u now rest
        ∧ (∀ t, t ≠ qt → (findMatch u qt lockOk now st).2.queues t = st.queues t)
        ∧ (∀ k, (findMatch u qt lockOk now st).2.kv k =
            if k = userDataKey u then some ⟨u, "", now⟩ else st.kv k)) := by
  by_cases hl : lockOk = false
  · left; constructor <;> simp [findMatch, hl]
  · have hlt : lockOk = true := by revert hl; cases lockOk <;> simp
    subst hlt
    cases hq : st.queues qt with
    | nil => left; constructor <;> simp [findMatch, hq]
    | cons e0 q1 =>
      cases q1 with
      | nil => left; constructor <;> simp [findMatch, hq]
      | cons e1 rest =>
        have hnd2 : (e0.1 :: e1.1 :: zmembers rest).Nodup := by
          have : zmembers (st.queues qt) = e0.1 :: e1.1 :: zmembers rest := by
            rw [hq]; rfl
          rw [this] at hnd; exact hnd
        have h01 : e0.1 ≠ e1.1 := by
          have := List.nodup_cons.mp hnd2
          exact fun hh => this.1 (hh ▸ List.mem_cons_self _ _)
        have h0r : ∀ e ∈ rest, e.1 ≠ e0.1 := by
          apply not_mem_zmembers_forall_ne
          have := List.nodup_cons.mp hnd2
          exact fun hm => this.1 (List.mem_cons_of_mem _ hm)
        have h1r : ∀ e ∈ rest, e.1 ≠ e1.1 := by
          apply not_mem_zmembers_forall_ne
          have := List.nodup_cons.mp (List.nodup_cons.mp hnd2).2
          exact this.1
        have h10 : ¬(e1.1 = e0.1) := fun hh => h01 hh.symm
        have hq2 : zrem e1.1 (zrem e0.1 (e0 :: e1 :: rest)) = rest := by
          simp [zrem, h10, zrem_eq_of_forall_ne e0.1 rest h0r,
            zrem_eq_of_forall_ne e1.1 rest h1r]
        by_cases hu : u ≠ e0.1 ∧ u ≠ e1.1
        · left; constructor <;> simp [findMatch, hq, hu]
        · have hu2 : u = e0.1 ∨ u = e1.1 := by
            rcases not_and_or.mp hu with h | h
            · exact Or.inl (not_not.mp h)
            · exact Or.inr (not_not.mp h)
          have hur : ∀ e ∈ rest, e.1 ≠ u := by
            rcases hu2 with h | h
            · rw [h]; exact h0r
            · rw [h]; exact h1r
          cases hk : st.kv (userDataKey (if e0.1 = u then e1.1 else e0.1)) with
          | some pd =>
            refine Or.inr (Or.inl ⟨e0, e1, rest, rfl, hu2, ⟨pd, ?_, ?_⟩, ?_, ?_, ?_⟩)
            · simp [findMatch, hq, hu, hk]
            · simp [getUserData, hk]
            · simp [findMatch, hq, hu, hk, hq2]
            · intro t ht
              simp [findMatch, hq, hu, hk, ht]
            · simp [findMatch, hq, hu, hk]
          | none =>
            have hsc : zscore rest u = none := zscore_eq_none u rest hur
            refine Or.inr (Or.inr ⟨e0, e1, rest, rfl, hu2, ?_, ?_, ?_, ?_, ?_⟩)
            · simp [findMatch, hq, hu, hk]
            · simp [getUserData, hk]
            · simp [findMatch, hq, hu, hk, hq2, addToQueue, hsc, zadd,
                zrem_eq_of_forall_ne u rest hur]
            · intro t ht
              simp [findMatch, hq, hu, hk, addToQueue, hq2, hsc, ht]
            · intro k
              simp [findMatch, hq, hu, hk, addToQueue, hq2, hsc]

/-- C1, witness: in the concrete two-user video queue the successful
extraction branch fires, removing both entries and returning b's
sidecar. -/
theorem findMatch_pair_extraction_witness :
    (zmembers (qmAB.queues .video)).Nodup
    ∧ (((findMatch "a" .video true 5 qmAB).2 = qmAB
          ∧ (findMatch "a" .video true 5 qmAB).1 = none)
      ∨ (∃ e0 e1 rest, qmAB.queues .video = e0 :: e1 :: rest
          ∧ ("a" = e0.1 ∨ "a" = e1.1)
          ∧ (∃ pd, (findMatch "a" .video true 5 qmAB).1 = some pd
              ∧ getUserData (if e0.1 = "a" then e1.1 else e0.1) qmAB = some pd)
          ∧ (findMatch "a" .video true 5 qmAB).2.queues .video = rest
          ∧ (∀ t, t ≠ SessionType.video →
              (findMatch "a" .video true 5 qmAB).2.queues t = qmAB.queues t)
          ∧ (findMatch "a" .video true 5 qmAB).2.kv = qmAB.kv)
      ∨ (∃ e0 e1 rest, qmAB.queues .video = e0 :: e1 :: rest
          ∧ ("a" = e0.1 ∨ "a" = e1.1)
          ∧ (findMatch "a" .video true 5 qmAB).1 = none
          ∧ getUserData (if e0.1 = "a" then e1.1 else e0.1) qmAB = none
          ∧ (findMatch "a" .video true 5 qmAB).2.queues .video = zinsert "a" 5 rest
          ∧ (∀ t, t ≠ SessionType.video →
              (findMatch "a" .video true 5 qmAB).2.queues t = qmAB.queues t)
          ∧ (∀ k, (findMatch "a" .video true 5 qmAB).2.kv k =
              if k = userDataKey "a" then some ⟨"a", "", 5⟩ else qmAB.kv k))) :=
  ⟨by decide, findMatch_pair_extraction qmAB "a" .video true 5 (by decide)⟩

/-! Claim C4: re-enqueue after failed session creation. -/

theorem isUserInQueue_true_of_probe (st : QMState) (u : String)
    (t : SessionType) (h : (zscore (st.queues t) u).isSome = true) :
    (isUserInQueue u st).1 = true := by
  by_cases h1 : (zscore (st.queues .video) u).isSome = true
  · simp [isUserInQueue, h1]
  · by_cases h2 : (zscore (st.queues .audio) u).isSome = true
    · simp [isUserInQueue, h1, h2]
    · by_cases h3 : (zscore (st.queues .text) u).isSome = true
      · simp [isUserInQueue, h1, h2, h3]
      · cases t
        · exact absurd h h1
        · exact absurd h h2
        · exact absurd h h3

theorem findMatch_success_eq (st : QMState) (u p1 : String) (qt : SessionType)
    (now s0 s1 : Nat) (rest : ZSet) (pd : IQueueUser)
    (hq : st.queues qt = (u, s0) :: (p1, s1) :: rest)
    (hpd : st.kv (userDataKey p1) = some pd) :
    findMatch u qt true now st =
      (some pd, { st with queues := fun t =>
        if t = qt then zrem p1 (zrem u (st.queues t)) else st.queues t }) := by
  simp only [findMatch, hq]
  simp [hpd]

theorem findMatch_success_snd_eq (st : QMState) (u m0 : String)
    (qt : SessionType) (now s0 s1 : Nat) (rest : ZSet) (pd : IQueueUser)
    (h0u : ¬(m0 = u))
    (hq : st.queues qt = (m0, s0) :: (u, s1) :: rest)
    (hpd : st.kv (userDataKey m0) = some pd) :
    findMatch u qt true now st =
      (some pd, { st with queues := fun t =>
        if t = qt then zrem u (zrem m0 (st.queues t)) else st.queues t }) := by
  simp only [findMatch, hq]
  simp [hpd, h0u]

/-- C4, counterexample. Users a (joinedAt 0) and b (joinedAt 1) wait in
video; b already holds a session, so session creation fails after the pair
is extracted at time 100. The claim promises re-enqueueing at the original
scores, but a is re-enqueued with score 100, not its original 0; the error
metric and failure result do occur. -/
theorem matchUser_requeue_cex :
    (matchUser "a" .video true 100 engC4).1 =
      ⟨false, none, none, some "Failed to create session"⟩
    ∧ zscore (engC4.qm.queues .video) "a" = some 0
    ∧ zscore ((matchUser "a" .video true 100 engC4).2.qm.queues .video) "a" = some 100
    ∧ zscore ((matchUser "a" .video true 100 engC4).2.qm.queues .video) "a" ≠ some 0
    ∧ (matchUser "a" .video true 100 engC4).2.errMetrics =
        [("matching", "session_creation_failed")] := by
  decide

/-- C4, amended. Whenever pair extraction succeeds — the caller being
either the older or the newer of the two oldest queue entries — and
session creation then fails, both extracted users are re-enqueued in the
same modality, but with fresh joinedAt scores equal to the current time,
not their original scores; a matching-subsystem error metric is recorded,
and the result reports failure. -/
theorem matchUser_requeue_fresh_scores (st : EngineState) (u m0 m1 : String)
    (qt : SessionType) (now s0 s1 : Nat) (rest : ZSet) (pd : IQueueUser)
    (hq : st.qm.queues qt = (m0, s0) :: (m1, s1) :: rest)
    (hu : u = m0 ∨ u = m1)
    (hnd : (zmembers (st.qm.queues qt)).Nodup)
    (hpd : st.qm.kv (userDataKey (if m0 = u then m1 else m0)) = some pd)
    (hpid : pd.userId = if m0 = u then m1 else m0)
    (hcs : (createSession qt u pd.userId now st.sm).1 = none) :
    (matchUser u qt true now st).1 =
      ⟨false, none, none, some "Failed to create session"⟩
    ∧ (matchUser u qt true now st).2.errMetrics =
        ("matching", "session_creation_failed") :: st.errMetrics
    ∧ zscore ((matchUser u qt true now st).2.qm.queues qt) u = some now
    ∧ zscore ((matchUser u qt true now st).2.qm.queues qt)
        (if m0 = u then m1 else m0) = some now
    ∧ (matchUser u qt true now st).2.sm = (createSession qt u pd.userId now st.sm).2 := by
  have hnd2 : (m0 :: m1 :: zmembers rest).Nodup := by
    have hz : zmembers (st.qm.queues qt) = m0 :: m1 :: zmembers rest := by
      rw [hq]; rfl
    rw [hz] at hnd; exact hnd
  have h01 : m0 ≠ m1 := by
    have := List.nodup_cons.mp hnd2
    exact fun hh => this.1 (hh ▸ List.mem_cons_self _ _)
  have h0r : ∀ e ∈ rest, e.1 ≠ m0 := by
    apply not_mem_zmembers_forall_ne
    have := List.nodup_cons.mp hnd2
    exact fun hm => this.1 (List.mem_cons_of_mem _ hm)
  have h1r : ∀ e ∈ rest, e.1 ≠ m1 := by
    apply not_mem_zmembers_forall_ne
    exact (List.nodup_cons.mp (List.nodup_cons.mp hnd2).2).1
  have h10 : ¬(m1 = m0) := fun hh => h01 hh.symm
  have hq2 : zrem m1 (zrem m0 ((m0, s0) :: (m1, s1) :: rest)) = rest := by
    simp [zrem, h10, zrem_eq_of_forall_ne m0 rest h0r,
      zrem_eq_of_forall_ne m1 rest h1r]
  rcases hu with hu | hu
  · have hif : (if m0 = u then m1 else m0) = m1 := if_pos hu.symm
    rw [hif] at hpd hpid
    rw [hpid] at hcs
    have hprobe : (zscore (st.qm.queues qt) u).isSome = true := by
      rw [hq, hu]; simp [zscore]
    have hinq : (isUserInQueue u st.qm).1 = true :=
      isUserInQueue_true_of_probe st.qm u qt hprobe
    have hup : u ≠ m1 := by rw [hu]; exact h01
    have hq' : st.qm.queues qt = (u, s0) :: (m1, s1) :: rest := by
      rw [hu]; exact hq
    have hq2' : zrem m1 (zrem u ((u, s0) :: (m1, s1) :: rest)) = rest := by
      rw [hu]; exact hq2
    have hnu : zscore rest u = none := by
      rw [hu]; exact zscore_eq_none m0 rest h0r
    have hsp1 : zscore (zadd u now rest) m1 = none := by
      rw [zscore_zadd_ne u m1 now (Ne.symm hup)]
      exact zscore_eq_none m1 rest h1r
    have hfm := findMatch_success_eq st.qm u m1 qt now s0 s1 rest pd hq' hpd
    refine ⟨?_, ?_, ?_, ?_, ?_⟩ <;>
      simp [matchUser, hinq, hfm, hcs, addToQueue, hq', hq2', hnu, hsp1, hpid, hif,
        zscore_zadd_ne m1 u now hup, zscore_zadd_self]
  · have hif : (if m0 = u then m1 else m0) = m0 :=
      if_neg (fun hh => h01 (hh.trans hu))
    rw [hif] at hpd hpid
    rw [hpid] at hcs
    have hprobe : (zscore (st.qm.queues qt) u).isSome = true := by
      rw [hq, hu]; simp [zscore, h01]
    have hinq : (isUserInQueue u st.qm).1 = true :=
      isUserInQueue_true_of_probe st.qm u qt hprobe
    have hup : ¬(m0 = u) := fun hh => h01 (hh.trans hu)
    have hq' : st.qm.queues qt = (m0, s0) :: (u, s1) :: rest := by
      rw [hu]; exact hq
    have hq2' : zrem u (zrem m0 ((m0, s0) :: (u, s1) :: rest)) = rest := by
      rw [hu]; exact hq2
    have hnu : zscore rest u = none := by
      rw [hu]; exact zscore_eq_none m1 rest h1r
    have hsp1 : zscore (zadd u now rest) m0 = none := by
      rw [zscore_zadd_ne u m0 now hup]
      exact zscore_eq_none m0 rest h0r
    have hfm := findMatch_success_snd_eq st.qm u m0 qt now s0 s1 rest pd hup hq' hpd
    refine ⟨?_, ?_, ?_, ?_, ?_⟩ <;>
      simp [matchUser, hinq, hfm, hcs, addToQueue, hq', hq2', hnu, hsp1, hpid, hif,
        zscore_zadd_ne m0 u now (Ne.symm hup), zscore_zadd_self]

/-- C4, witness for the amended theorem at two concrete failing states:
first with the caller b extracted as the newer of the top two (the usual
quickMatch shape, partner a already in a session), then with the caller a
as the oldest entry (partner b already in a session). -/
theorem matchUser_requeue_fresh_scores_witness :
    ((matchUser "b" .video true 100 engC4b).1 =
        ⟨false, none, none, some "Failed to create session"⟩
      ∧ (matchUser "b" .video true 100 engC4b).2.errMetrics =
          ("matching", "session_creation_failed") :: engC4b.errMetrics
      ∧ zscore ((matchUser "b" .video true 100 engC4b).2.qm.queues .video) "b" = some 100
      ∧ zscore ((matchUser "b" .video true 100 engC4b).2.qm.queues .video)
          (if "a" = "b" then "b" else "a") = some 100
      ∧ (matchUser "b" .video true 100 engC4b).2.sm =
          (createSession .video "b" (IQueueUser.mk "a" "sa" 0).userId 100 engC4b.sm).2)
    ∧ ((matchUser "a" .video true 100 engC4).1 =
        ⟨false, none, none, some "Failed to create session"⟩
      ∧ (matchUser "a" .video true 100 engC4).2.errMetrics =
          ("matching", "session_creation_failed") :: engC4.errMetrics
      ∧ zscore ((matchUser "a" .video true 100 engC4).2.qm.queues .video) "a" = some 100
      ∧ zscore ((matchUser "a" .video true 100 engC4).2.qm.queues .video)
          (if "a" = "a" then "b" else "a") = some 100
      ∧ (matchUser "a" .video true 100 engC4).2.sm =
          (createSession .video "a" (IQueueUser.mk "b" "sb" 1).userId 100 engC4.sm).2) :=
  ⟨matchUser_requeue_fresh_scores engC4b "b" "a" "b" .video 100 0 1 [] ⟨"a", "sa", 0⟩
      (by decide) (Or.inr rfl) (by decide) (by decide) (by decide) (by decide),
    matchUser_requeue_fresh_scores engC4 "a" "a" "b" .video 100 0 1 [] ⟨"b", "sb", 1⟩
      (by decide) (Or.inl rfl) (by decide) (by decide) (by decide) (by decide)⟩

/-! Claim C3: reverse-pointer atomicity across SessionManager
operations. -/

theorem pointersOk_init : PointersOk SMState.init := by
  refine ⟨fun sid s h => ?_, fun u sid h => ?_, fun sid _ => rfl⟩
  · exact Option.noConfusion h
  · exact Option.noConfusion h

theorem getActiveSession_none_ptr (u : String) (st : SMState)
    (h : (getActiveSession u st).1 = none) :
    (getActiveSession u st).2.userSession u = none := by
  cases hp : st.userSession u with
  | none => simp [getActiveSession, hp]
  | some sid =>
    cases hs : st.sessions sid with
    | none => simp [getActiveSession, hp, hs]
    | some s => simp [getActiveSession, hp, hs] at h

theorem pointersOk_getActiveSession (u : String) (st : SMState)
    (h : PointersOk st) : PointersOk (getActiveSession u st).2 := by
  obtain ⟨hA, hB, hC⟩ := h
  cases hp : st.userSession u with
  | none =>
    have hstate : (getActiveSession u st).2 = st := by simp [getActiveSession, hp]
    rw [hstate]; exact ⟨hA, hB, hC⟩
  | some sid =>
    cases hs : st.sessions sid with
    | some s =>
      have hstate : (getActiveSession u st).2 = st := by simp [getActiveSession, hp, hs]
      rw [hstate]; exact ⟨hA, hB, hC⟩
    | none =>
      have hstate : (getActiveSession u st).2 =
          { st with userSession := fun v => if v = u then none else st.userSession v } := by
        simp [getActiveSession, hp, hs]
      rw [hstate]
      refine ⟨fun sid' s' hrec => ?_, fun v sid' hpt => ?_, fun sid' hge => hC sid' hge⟩
      · obtain ⟨h1, h2⟩ := hA sid' s' hrec
        have hne1 : s'.user1Id ≠ u := by
          intro hh
          rw [hh, hp] at h1
          have : sid' = sid := by injection h1.symm
          rw [this] at hrec
          rw [hs] at hrec
          exact Option.noConfusion hrec
        have hne2 : s'.user2Id ≠ u := by
          intro hh
          rw [hh, hp] at h2
          have : sid' = sid := by injection h2.symm
          rw [this] at hrec
          rw [hs] at hrec
          exact Option.noConfusion hrec
        constructor
        · show (if s'.user1Id = u then none else st.userSession s'.user1Id) = some sid'
          rw [if_neg hne1]; exact h1
        · show (if s'.user2Id = u then none else st.userSession s'.user2Id) = some sid'
          rw [if_neg hne2]; exact h2
      · have hpt2 : (if v = u then none else st.userSession v) = some sid' := hpt
        by_cases hv : v = u
        · rw [if_pos hv] at hpt2
          exact Option.noConfusion hpt2
        · rw [if_neg hv] at hpt2
          exact hB v sid' hpt2

theorem pointersOk_endSession (sid : Nat) (status : SessionStatus)
    (st : SMState) (h : PointersOk st) : PointersOk (endSession sid status st).2 := by
  obtain ⟨hA, hB, hC⟩ := h
  cases hs : st.sessions sid with
  | none =>
    have hstate : (endSession sid status st).2 = st := by
      simp [endSession, getSessionById, hs]
    rw [hstate]; exact ⟨hA, hB, hC⟩
  | some sess =>
    cases hd : st.db sid with
    | none =>
      have hstate : (endSession sid status st).2 = st := by
        simp [endSession, getSessionById, hs, dbEndSession, hd]
      rw [hstate]; exact ⟨hA, hB, hC⟩
    | some row =>
      by_cases hr : row.status = .active
      · have hstate : (endSession sid status st).2 =
            { st with
              db := fun i => if i = sid then some { row with status := status } else st.db i,
              sessions := fun i => if i = sid then none else st.sessions i,
              userSession := fun v =>
                if v = sess.user1Id ∨ v = sess.user2Id then none else st.userSession v } := by
          simp [endSession, getSessionById, hs, dbEndSession, hd, hr]
        rw [hstate]
        obtain ⟨g1, g2⟩ := hA sid sess hs
        refine ⟨fun sid' s' hrec => ?_, fun v sid' hpt => ?_, fun sid' hge => ?_⟩
        · have hrec2 : (if sid' = sid then none else st.sessions sid') = some s' := hrec
          by_cases hh : sid' = sid
          · rw [if_pos hh] at hrec2
            exact Option.noConfusion hrec2
          · rw [if_neg hh] at hrec2
            obtain ⟨h1, h2⟩ := hA sid' s' hrec2
            have hne1 : ¬(s'.user1Id = sess.user1Id ∨ s'.user1Id = sess.user2Id) := by
              rintro (he | he)
              · rw [he] at h1; rw [h1] at g1
                exact hh (Option.some.inj g1)
              · rw [he] at h1; rw [h1] at g2
                exact hh (Option.some.inj g2)
            have hne2 : ¬(s'.user2Id = sess.user1Id ∨ s'.user2Id = sess.user2Id) := by
              rintro (he | he)
              · rw [he] at h2; rw [h2] at g1
                exact hh (Option.some.inj g1)
              · rw [he] at h2; rw [h2] at g2
                exact hh (Option.some.inj g2)
            constructor
            · show (if s'.user1Id = sess.user1Id ∨ s'.user1Id = sess.user2Id then none
                  else st.userSession s'.user1Id) = some sid'
              rw [if_neg hne1]; exact h1
            · show (if s'.user2Id = sess.user1Id ∨ s'.user2Id = sess.user2Id then none
                  else st.userSession s'.user2Id) = some sid'
              rw [if_neg hne2]; exact h2
        · have hpt2 : (if v = sess.user1Id ∨ v = sess.user2Id then none
              else st.userSession v) = some sid' := hpt
          by_cases hv : v = sess.user1Id ∨ v = sess.user2Id
          · rw [if_pos hv] at hpt2
            exact Option.noConfusion hpt2
          · rw [if_neg hv] at hpt2
            obtain ⟨s', hs', hmem⟩ := hB v sid' hpt2
            have hsid : ¬(sid' = sid) := by
              intro hh
              rw [hh, hs] at hs'
              have hv2 : s' = sess := Option.some.inj hs'.symm
              rw [hv2] at hmem
              exact hv hmem
            refine ⟨s', ?_, hmem⟩
            show (if sid' = sid then none else st.sessions sid') = some s'
            rw [if_neg hsid]; exact hs'
        · by_cases hh : sid' = sid
          · show (if sid' = sid then none else st.sessions sid') = none
            rw [if_pos hh]
          · show (if sid' = sid then none else st.sessions sid') = none
            rw [if_neg hh]; exact hC sid' hge
      · have hstate : (endSession sid status st).2 = st := by
          simp [endSession, getSessionById, hs, dbEndSession, hd, hr]
        rw [hstate]; exact ⟨hA, hB, hC⟩

theorem pointersOk_createSession (t : SessionType) (u1 u2 : String)
    (now : Nat) (st : SMState) (h : PointersOk st) :
    PointersOk (createSession t u1 u2 now st).2 := by
  cases he1 : (getActiveSession u1 st).1 with
  | some s =>
    have hstate : (createSession t u1 u2 now st).2 =
        (getActiveSession u2 (getActiveSession u1 st).2).2 := by
      simp [createSession, he1]
    rw [hstate]
    exact pointersOk_getActiveSession u2 _ (pointersOk_getActiveSession u1 st h)
  | none =>
    cases he2 : (getActiveSession u2 (getActiveSession u1 st).2).1 with
    | some s =>
      have hstate : (createSession t u1 u2 now st).2 =
          (getActiveSession u2 (getActiveSession u1 st).2).2 := by
        simp [createSession, he1, he2]
      rw [hstate]
      exact pointersOk_getActiveSession u2 _ (pointersOk_getActiveSession u1 st h)
    | none =>
      have hok2 : PointersOk (getActiveSession u2 (getActiveSession u1 st).2).2 :=
        pointersOk_getActiveSession u2 _ (pointersOk_getActiveSession u1 st h)
      obtain ⟨hA, hB, hC⟩ := hok2
      have hp1 : (getActiveSession u2 (getActiveSession u1 st).2).2.userSession u1 = none := by
        have hbase : (getActiveSession u1 st).2.userSession u1 = none :=
          getActiveSession_none_ptr u1 st he1
        rcases (getActiveSession_state u2 (getActiveSession u1 st).2).2.2.2 u1 with hc | hc
        · rw [hc]; exact hbase
        · exact hc
      have hp2 : (getActiveSession u2 (getActiveSession u1 st).2).2.userSession u2 = none :=
        getActiveSession_none_ptr u2 _ he2
      set st2 := (getActiveSession u2 (getActiveSession u1 st).2).2 with hst2
      have hfresh : st2.sessions st2.nextId = none := hC st2.nextId (le_refl _)
      have hstate : (createSession t u1 u2 now st).2 =
          { st2 with
            sessions := fun i =>
              if i = st2.nextId then some ⟨st2.nextId, t, u1, u2, now⟩ else st2.sessions i,
            userSession := fun v =>
              if v = u2 then some st2.nextId
              else if v = u1 then some st2.nextId
              else st2.userSession v,
            db := fun i =>
              if i = st2.nextId then some ⟨t, u1, u2, .active⟩ else st2.db i,
            nextId := st2.nextId + 1 } := by
        simp [createSession, he1, he2, dbCreate, hst2]
      rw [hstate]
      refine ⟨fun sid' s' hrec => ?_, fun v sid' hpt => ?_, fun sid' hge => ?_⟩
      · have hrec0 : (if sid' = st2.nextId
            then some (⟨st2.nextId, t, u1, u2, now⟩ : IActiveSession)
            else st2.sessions sid') = some s' := hrec
        by_cases hh : sid' = st2.nextId
        · rw [if_pos hh] at hrec0
          have hs' : s' = ⟨st2.nextId, t, u1, u2, now⟩ := (Option.some.inj hrec0).symm
          rw [hs', hh]
          constructor
          · show (if u1 = u2 then some st2.nextId
                else if u1 = u1 then some st2.nextId else st2.userSession u1) = some st2.nextId
            by_cases h12 : u1 = u2
            · rw [if_pos h12]
            · rw [if_neg h12, if_pos rfl]
          · show (if u2 = u2 then some st2.nextId
                else if u2 = u1 then some st2.nextId else st2.userSession u2) = some st2.nextId
            rw [if_pos rfl]
        · rw [if_neg hh] at hrec0
          obtain ⟨h1, h2⟩ := hA sid' s' hrec0
          have hne11 : s'.user1Id ≠ u1 := by
            intro hhh; rw [hhh, hp1] at h1; exact Option.noConfusion h1
          have hne12 : s'.user1Id ≠ u2 := by
            intro hhh; rw [hhh, hp2] at h1; exact Option.noConfusion h1
          have hne21 : s'.user2Id ≠ u1 := by
            intro hhh; rw [hhh, hp1] at h2; exact Option.noConfusion h2
          have hne22 : s'.user2Id ≠ u2 := by
            intro hhh; rw [hhh, hp2] at h2; exact Option.noConfusion h2
          constructor
          · show (if s'.user1Id = u2 then some st2.nextId
                else if s'.user1Id = u1 then some st2.nextId
                else st2.userSession s'.user1Id) = some sid'
            rw [if_neg hne12, if_neg hne11]; exact h1
          · show (if s'.user2Id = u2 then some st2.nextId
                else if s'.user2Id = u1 then some st2.nextId
                else st2.userSession s'.user2Id) = some sid'
            rw [if_neg hne22, if_neg hne21]; exact h2
      · have hpt' : (if v = u2 then some st2.nextId
            else if v = u1 then some st2.nextId else st2.userSession v) = some sid' := hpt
        by_cases hv2 : v = u2
        · rw [if_pos hv2] at hpt'
          have hsid : sid' = st2.nextId := (Option.some.inj hpt').symm
          refine ⟨⟨st2.nextId, t, u1, u2, now⟩, ?_, Or.inr (by rw [hv2])⟩
          show (if sid' = st2.nextId then some (⟨st2.nextId, t, u1, u2, now⟩ : IActiveSession) else st2.sessions sid') = _
          rw [if_pos hsid]
        · rw [if_neg hv2] at hpt'
          by_cases hv1 : v = u1
          · rw [if_pos hv1] at hpt'
            have hsid : sid' = st2.nextId := (Option.some.inj hpt').symm
            refine ⟨⟨st2.nextId, t, u1, u2, now⟩, ?_, Or.inl (by rw [hv1])⟩
            show (if sid' = st2.nextId then some (⟨st2.nextId, t, u1, u2, now⟩ : IActiveSession) else st2.sessions sid') = _
            rw [if_pos hsid]
          · rw [if_neg hv1] at hpt'
            obtain ⟨s', hs', hmem⟩ := hB v sid' hpt'
            have hsid : ¬(sid' = st2.nextId) := by
              intro hhh; rw [hhh, hfresh] at hs'; exact Option.noConfusion hs'
            refine ⟨s', ?_, hmem⟩
            show (if sid' = st2.nextId then some (⟨st2.nextId, t, u1, u2, now⟩ : IActiveSession) else st2.sessions sid') = some s'
            rw [if_neg hsid]; exact hs'
      · have hlt : ¬(sid' = st2.nextId) := by
          intro hhh
          rw [hhh] at hge
          exact Nat.not_succ_le_self st2.nextId hge
        show (if sid' = st2.nextId then some (⟨st2.nextId, t, u1, u2, now⟩ : IActiveSession) else st2.sessions sid') = none
        rw [if_neg hlt]
        exact hC sid' (Nat.le_of_succ_le hge)

/-- C3. In every state reachable by SessionManager operations the session
index is consistent: each cached session record carries both members'
reverse pointers, every reverse pointer leads to a live record containing
its user, and, as the claim states it, for every session record the two
members' reverse pointers exist together — creation writes both with the
record and ending deletes the record with both pointers, so the pointers
never exist singly. -/
theorem session_pointers_atomic (st : SMState) (h : SMReach st) :
    PointersOk st
    ∧ ∀ sid s, st.sessions sid = some s →
        ((st.userSession s.user1Id).isSome ↔ (st.userSession s.user2Id).isSome) := by
  have hok : PointersOk st := by
    induction h with
    | init => exact pointersOk_init
    | create t u1 u2 now st' _ ih => exact pointersOk_createSession t u1 u2 now st' ih
    | endSess sid status st' _ ih => exact pointersOk_endSession sid status st' ih
    | lookup u st' _ ih => exact pointersOk_getActiveSession u st' ih
  refine ⟨hok, fun sid s hrec => ?_⟩
  obtain ⟨h1, h2⟩ := hok.1 sid s hrec
  rw [h1, h2]

/-- C3, witness: the state reached by one createSession from the empty
store is covered by the reachability hypothesis and satisfies the
invariant. -/
theorem session_pointers_atomic_witness :
    SMReach (createSession .video "a" "b" 3 SMState.init).2
    ∧ (PointersOk (createSession .video "a" "b" 3 SMState.init).2
      ∧ ∀ sid s, (createSession .video "a" "b" 3 SMState.init).2.sessions sid = some s →
          (((createSession .video "a" "b" 3 SMState.init).2.userSession s.user1Id).isSome ↔
            ((createSession .video "a" "b" 3 SMState.init).2.userSession s.user2Id).isSome)) :=
  ⟨SMReach.create .video "a" "b" 3 SMState.init SMReach.init,
    session_pointers_atomic _ (SMReach.create .video "a" "b" 3 SMState.init SMReach.init)⟩

end Bondra
